import Mathlib

/-!
Verification development for the `managesieve` Rust crate, a client engine
for the ManageSieve protocol (RFC 5804).

The repository is shallowly embedded: strings are `List Char` (mirroring the
Rust code, which parses `&str` input whose winnow tokens are `char`s), byte
sequences are `List Nat`, and the incremental winnow parsers over
`Partial<&str>` are embedded as functions `List Char → PRes α` with the
three-way result contract Incomplete / Backtrack / Cut mirrored in `PErr`.
Stateful transport interaction is embedded as explicit state passing over a
`Transport` record; per-operation receive logic is embedded as pure
functions from the parsed `Response` to an outcome value that makes visible
whether the connection value is handed back to the caller.
-/

set_option maxRecDepth 4096
set_option linter.dupNamespace false

/-! ## Core wire data model (src/lib.rs) -/

/-- Quota sub-classification. `src/src/internal/parser.rs` calls this
`QuotaVariant` with variants `None/MaxScripts/MaxSize`; `src/src/lib.rs`
calls the same three-variant enum `Quota` with `Unspecified` for `None`. -/
inductive QuotaVariant where
  | None
  | MaxScripts
  | MaxSize
deriving DecidableEq

/-- `ExtensionItem` from src/src/lib.rs: a string, a number, or nested data. -/
inductive ExtensionItem where
  | String (s : List Char)
  | Number (n : Nat)
  | ExtensionData (l : List ExtensionItem)

/-- `ResponseCode` from src/src/lib.rs. -/
inductive ResponseCode where
  | AuthTooWeak
  | EncryptNeeded
  | Quota (q : QuotaVariant)
  | Referral (url : List Char)
  | Sasl (data : List Char)
  | TransitionNeeded
  | TryLater
  | Active
  | Nonexistent
  | AlreadyExists
  | Warnings
  | Tag (t : List Char)
  | Extension (name : List Char) (data : Option (List ExtensionItem))

/-- `ResponseInfo` from src/src/lib.rs: optional response code and optional
human-readable text of a tagged response line. -/
structure ResponseInfo where
  code : Option ResponseCode
  human : Option (List Char)

/-- Response tag. The source (src/src/parser/mod.rs) indexes `Tag` by
type-level markers so that impossible tags are `Infallible`; the embedding
uses the plain three-variant enum and states tag restrictions in theorems. -/
inductive Tag where
  | Ok
  | No
  | Bye
deriving DecidableEq

/-- `Response` from src/src/parser/mod.rs: a tag plus `ResponseInfo`. -/
structure Response where
  tag : Tag
  info : ResponseInfo

/-! ## Embedding of the winnow parser combinators

The source parses `Partial<&str>`: tokens are `char`s, and a parse attempt
on the bytes buffered so far returns exactly one of success, `Incomplete`
(more input needed), or an error (winnow `Backtrack`, which `alt`/`opt`
recover from, or `Cut`, which they do not). -/

/-- Error modes of a winnow parser over `Partial` input. -/
inductive PErr where
  | Incomplete
  | Backtrack
  | Cut
deriving DecidableEq

/-- Result of running an embedded parser: a value plus remaining input, or
an error mode. -/
inductive PRes (α : Type) where
  | ok (val : α) (rest : List Char)
  | err (e : PErr)

/-- An embedded winnow parser over `Partial<&str>` input. -/
def P (α : Type) : Type := List Char → PRes α

variable {α β γ : Type}

/-- Map over a parser result (winnow `.map`). -/
def pmap (p : P α) (f : α → β) : P β := fun inp =>
  match p inp with
  | .ok v r => .ok (f v) r
  | .err e => .err e

/-- Run two parsers in sequence, pairing results (winnow tuple parsers). -/
def pthen (p : P α) (q : P β) : P (α × β) := fun inp =>
  match p inp with
  | .ok a r =>
    match q r with
    | .ok b r2 => .ok (a, b) r2
    | .err e => .err e
  | .err e => .err e

/-- winnow `alt`: try `q` only when `p` fails with `Backtrack`;
`Incomplete` and `Cut` are returned unchanged. -/
def palt (p q : P α) : P α := fun inp =>
  match p inp with
  | .err .Backtrack => q inp
  | r => r

/-- winnow `opt`: `Backtrack` becomes `none` without consuming input;
`Incomplete` and `Cut` still propagate. -/
def popt (p : P α) : P (Option α) := fun inp =>
  match p inp with
  | .ok v r => .ok (some v) r
  | .err .Backtrack => .ok none inp
  | .err e => .err e

/-- winnow `preceded`. -/
def ppreceded (p : P α) (q : P β) : P β := pmap (pthen p q) (fun x => x.2)

/-- winnow `terminated`. -/
def pterminated (p : P α) (q : P β) : P α := pmap (pthen p q) (fun x => x.1)

/-- winnow `delimited`. -/
def pdelimited (l : P α) (m : P β) (r : P γ) : P β :=
  pterminated (ppreceded l m) r

/-- Helper for a literal tag over `Partial` input: compare character by
character; running out of input while matching yields `Incomplete`, a
mismatch yields `Backtrack`. -/
def pLitAux : List Char → List Char → PRes Unit
  | [], rest => .ok () rest
  | _ :: _, [] => .err .Incomplete
  | t :: ts, c :: cs => if c = t then pLitAux ts cs else .err .Backtrack

/-- A winnow string-literal parser (e.g. the `"\x7b"` and `crlf` tags in the
source). The matched slice is never used by the source, so the embedding
returns `Unit`. -/
def pLit (tag : List Char) : P Unit := fun inp => pLitAux tag inp

/-- Rust `char::to_ascii_lowercase`. -/
def lowerAscii (c : Char) : Char :=
  if 'A' ≤ c && c ≤ 'Z' then Char.ofNat (c.toNat + 32) else c

/-- Rust `eq_ignore_ascii_case` on single characters. -/
def caseEq (a b : Char) : Bool := lowerAscii a = lowerAscii b

/-- Helper for winnow `Caseless(tag)` over `Partial` input, mirroring
`pLitAux` with ASCII-case-insensitive comparison. -/
def pCaselessAux : List Char → List Char → PRes Unit
  | [], rest => .ok () rest
  | _ :: _, [] => .err .Incomplete
  | t :: ts, c :: cs => if caseEq c t then pCaselessAux ts cs else .err .Backtrack

/-- winnow `Caseless(tag)`. -/
def pCaseless (tag : List Char) : P Unit := fun inp => pCaselessAux tag inp

/-- winnow `take_while(1.., pred)` over `Partial` input: reaching the end of
the buffer while still matching (including on empty input) is `Incomplete`;
a non-matching first character is `Backtrack`. -/
def takeWhile1 (pred : Char → Bool) : P (List Char) := fun inp =>
  if inp.dropWhile pred = [] then .err .Incomplete
  else if inp.takeWhile pred = [] then .err .Backtrack
  else .ok (inp.takeWhile pred) (inp.dropWhile pred)

/-- winnow `take(n)` over `Partial<&str>` input: takes `n` tokens, and the
tokens of a `&str` stream are `char`s, not bytes; fewer than `n` characters
remaining is `Incomplete`. -/
def takeN (n : Nat) : P (List Char) := fun inp =>
  if inp.length < n then .err .Incomplete
  else .ok (inp.take n) (inp.drop n)

/-- winnow `ascii::digit1`: one or more ASCII decimal digits. -/
def digit1 : P (List Char) := takeWhile1 (fun c => c.isDigit)

/-- winnow `ascii::space1`: one or more of space / tab. -/
def space1 : P (List Char) := takeWhile1 (fun c => c = ' ' || c = '\t')

/-- winnow `ascii::crlf`. -/
def crlf : P Unit := pLit ['\r', '\n']

/-- Value of an ASCII digit string, as computed by `u64::from_str`. -/
def digitsToNat (ds : List Char) : Nat :=
  ds.foldl (fun a c => 10 * a + (c.toNat - 48)) 0

/-- winnow `.parse_to::<u64>()` applied to a digit-string parser:
`u64::from_str` fails (a `Backtrack` error through `try_map`) on an empty
string and on overflow past `2 ^ 64 - 1`. -/
def parse_to_u64 (p : P (List Char)) : P Nat := fun inp =>
  match p inp with
  | .ok ds r =>
    if ds.isEmpty then .err .Backtrack
    else if digitsToNat ds < 2 ^ 64 then .ok (digitsToNat ds) r
    else .err .Backtrack
  | .err e => .err e

/-- winnow `binary::length_take`: run the length parser, then take that many
tokens (characters, for a `&str` stream). -/
def length_take (f : P Nat) : P (List Char) := fun inp =>
  match f inp with
  | .ok n r => takeN n r
  | .err e => .err e

/-! ## src/src/parser/responses.rs -/

/-- `literal_s2c_len`: `terminated(delimited("\x7b", digit1.parse_to(), "\x7d"), crlf)`. -/
def literal_s2c_len : P Nat :=
  pterminated (pdelimited (pLit ['{']) (parse_to_u64 digit1) (pLit ['}'])) crlf

/-- `literal_s2c`: `length_take(literal_s2c_len)` (the `.map(ToOwned)` of the
source is the identity on the embedded slice). -/
def literal_s2c : P (List Char) := length_take literal_s2c_len

/-- Body of the source's `quoted_string` escape loop, the winnow `escaped`
combinator: alternate runs of 1+ non-`\`-non-`"` characters with `\\` or
`\"` escapes, stopping (without consuming) at the first unescaped `"`;
reaching the end of the buffer mid-string is `Incomplete`. Fuel is the
input length; every iteration consumes at least one character. -/
def escapedGo : Nat → List Char → List Char → PRes (List Char)
  | _, _, [] => .err .Incomplete
  | 0, _, _ => .err .Incomplete
  | fuel + 1, acc, inp =>
    match takeWhile1 (fun c => !(c = '\\') && !(c = '"')) inp with
    | .ok chunk rest => escapedGo fuel (acc ++ chunk) rest
    | .err .Incomplete => .err .Incomplete
    | .err _ =>
      match inp with
      | '\\' :: rest =>
        match rest with
        | '\\' :: r => escapedGo fuel (acc ++ ['\\']) r
        | '"' :: r => escapedGo fuel (acc ++ ['"']) r
        | [] => .err .Incomplete
        | _ => .err .Backtrack
      | _ => .ok acc inp

/-- The `escaped(take_while(1.., ..), '\\', alt(..))` parser inside
`quoted_string`. -/
def escapedBody : P (List Char) := fun inp => escapedGo (inp.length + 1) [] inp

/-- `quoted_string` from src/src/parser/responses.rs. -/
def quoted_string : P (List Char) :=
  palt (pmap (pLit ['"', '"']) (fun _ => ([] : List Char)))
    (pdelimited (pLit ['"']) escapedBody (pLit ['"']))

/-- `sievestring_s2c`: a server-to-client literal or a quoted string. -/
def sievestring_s2c : P (List Char) := palt literal_s2c quoted_string

/-- Tail loop of winnow `separated(1.., item, space1)`: keep parsing
`space1` then `item`, stopping (and restoring the checkpoint before the
separator) when either backtracks; `Incomplete`/`Cut` propagate. Fuel is
bounded by the input length, which suffices because every iteration
consumes at least one separator character. -/
def sepTail (item : P α) : Nat → List α → List Char → PRes (List α)
  | 0, _, _ => .err .Cut
  | fuel + 1, acc, inp =>
    match space1 inp with
    | .err .Backtrack => .ok acc inp
    | .err e => .err e
    | .ok _ r =>
      match item r with
      | .err .Backtrack => .ok acc inp
      | .err e => .err e
      | .ok a r2 => sepTail item fuel (acc ++ [a]) r2

/-- winnow `separated(1.., item, space1)`. -/
def separated1 (item : P α) : P (List α) := fun inp =>
  match item inp with
  | .err e => .err e
  | .ok a r => sepTail item (inp.length + 1) [a] r

/-- `extension_item`, with explicit fuel for the nesting through
parenthesised `extension_data`; the fuel is bounded by the input length,
which suffices because every nesting level consumes a parenthesis. -/
def extension_item_go : Nat → P ExtensionItem
  | 0 => fun _ => .err .Cut
  | fuel + 1 =>
    palt (pmap sievestring_s2c ExtensionItem.String)
      (palt (pmap (parse_to_u64 digit1) ExtensionItem.Number)
        (pdelimited (pLit ['('])
          (pmap (separated1 (extension_item_go fuel)) ExtensionItem.ExtensionData)
          (pLit [')'])))

/-- `extension_data`: `separated(1.., extension_item, space1)`. -/
def extension_data : P (List ExtensionItem) := fun inp =>
  separated1 (extension_item_go (inp.length + 1)) inp

/-- `code` from src/src/parser/responses.rs: a parenthesised response code,
with the alternatives in source order and the `Extension` fallback last.
As in the source, the `SASL`/`REFERRAL`/`TAG` branches parse their
sieve-string argument immediately after the atom. -/
def code : P ResponseCode :=
  pdelimited (pLit ['('])
    (palt (pmap (pCaseless "AUTH-TOO-WEAK".data) (fun _ => ResponseCode.AuthTooWeak))
    (palt (pmap (pCaseless "ENCRYPT-NEEDED".data) (fun _ => ResponseCode.EncryptNeeded))
    (palt (pmap (pCaseless "QUOTA/MAXSCRIPTS".data) (fun _ => ResponseCode.Quota QuotaVariant.MaxScripts))
    (palt (pmap (pCaseless "QUOTA/MAXSIZE".data) (fun _ => ResponseCode.Quota QuotaVariant.MaxSize))
    (palt (pmap (pCaseless "QUOTA".data) (fun _ => ResponseCode.Quota QuotaVariant.None))
    (palt (pmap (pthen (pCaseless "SASL".data) sievestring_s2c) (fun x => ResponseCode.Sasl x.2))
    (palt (pmap (pthen (pCaseless "REFERRAL".data) sievestring_s2c) (fun x => ResponseCode.Referral x.2))
    (palt (pmap (pCaseless "TRANSITION-NEEDED".data) (fun _ => ResponseCode.TransitionNeeded))
    (palt (pmap (pCaseless "TRYLATER".data) (fun _ => ResponseCode.TryLater))
    (palt (pmap (pCaseless "ACTIVE".data) (fun _ => ResponseCode.Active))
    (palt (pmap (pCaseless "NONEXISTENT".data) (fun _ => ResponseCode.Nonexistent))
    (palt (pmap (pCaseless "ALREADYEXISTS".data) (fun _ => ResponseCode.AlreadyExists))
    (palt (pmap (pCaseless "WARNINGS".data) (fun _ => ResponseCode.Warnings))
    (palt (pmap (pthen (pCaseless "TAG".data) sievestring_s2c) (fun x => ResponseCode.Tag x.2))
      (pmap (pthen sievestring_s2c (popt (ppreceded space1 extension_data)))
        (fun x => ResponseCode.Extension x.1 x.2))))))))))))))))
    (pLit [')'])

/-- `response_ok`: `OK [SP code] [SP human-text] CRLF`. -/
def response_ok : P Response :=
  pmap
    (pterminated
      (pthen (pthen (pCaseless "OK".data) (popt (ppreceded space1 code)))
        (popt (ppreceded space1 sievestring_s2c)))
      crlf)
    (fun x => { tag := Tag.Ok, info := { code := x.1.2, human := x.2 } })

/-- `response_nobye`: `(NO | BYE) [SP code] [SP human-text] CRLF`. -/
def response_nobye : P Response :=
  pmap
    (pterminated
      (pthen
        (pthen
          (palt (pmap (pCaseless "NO".data) (fun _ => Tag.No))
            (pmap (pCaseless "BYE".data) (fun _ => Tag.Bye)))
          (popt (ppreceded space1 code)))
        (popt (ppreceded space1 sievestring_s2c)))
      crlf)
    (fun x => { tag := x.1.1, info := { code := x.1.2, human := x.2 } })

/-- `response_oknobye`: an OK line or a NO/BYE line (the source re-wraps the
typed tags; on the plain embedding this is the bare alternative). -/
def response_oknobye : P Response := palt response_ok response_nobye

/-! ## src/src/capabilities.rs -/

/-- `Version` from src/src/capabilities.rs. -/
structure Version where
  major : Nat
  minor : Nat
deriving DecidableEq

/-- Parsed capability entries, `Capability` from src/src/parser/mod.rs. -/
inductive Capability where
  | Implementation (s : List Char)
  | Sasl (l : List (List Char))
  | Sieve (l : List (List Char))
  | StartTls
  | MaxRedirects (n : Nat)
  | Notify (l : List (List Char))
  | Language (s : List Char)
  | Owner (s : List Char)
  | Version (v : Version)
  | Unknown (name : List Char) (value : Option (List Char))
deriving DecidableEq

/-- `CapabilitiesError` from src/src/capabilities.rs. -/
inductive CapabilitiesError where
  | MissingImplementation
  | MissingSieve
  | MissingVersion
  | DuplicateCapability (capability : List Char)
deriving DecidableEq

/-- The validated `Capabilities` record from src/src/capabilities.rs. The
source stores unknown keys in a `HashMap`; the embedding uses an
association list with the same key-equality semantics. -/
structure Capabilities where
  implementation : List Char
  sasl : List (List Char)
  sieve : List (List Char)
  start_tls : Bool
  max_redirects : Option Nat
  notify : Option (List (List Char))
  language : Option (List Char)
  owner : Option (List Char)
  version : Version
  others : List (List Char × Option (List Char))
deriving DecidableEq

/-- The local mutable state of `verify_capabilities` during its fold. -/
structure CapState where
  implementation : Option (List Char)
  sasl : Option (List (List Char))
  sieve : Option (List (List Char))
  start_tls : Option Unit
  max_redirects : Option Nat
  notify : Option (List (List Char))
  language : Option (List Char)
  owner : Option (List Char)
  version : Option Version
  others : List (List Char × Option (List Char))

/-- Initial state of the fold: every field unset. -/
def initState : CapState :=
  { implementation := none, sasl := none, sieve := none, start_tls := none
    max_redirects := none, notify := none, language := none, owner := none
    version := none, others := [] }

/-- `HashMap` key lookup for the `others` map. -/
def lookupOthers (l : List (List Char × Option (List Char))) (k : List Char) :
    Option (Option (List Char)) :=
  match l with
  | [] => none
  | (k', v) :: r => if k' = k then some v else lookupOthers r k

/-- One iteration of the `for capability in capabilities` loop of
`verify_capabilities`, with the source's `try_set` helper (fail with
`DuplicateCapability` when the field is already set) inlined per field. -/
def stepCap (st : CapState) : Capability → Except CapabilitiesError CapState
  | .Implementation c =>
    match st.implementation with
    | some _ => .error (.DuplicateCapability ("IMPLEMENTATION".data))
    | none => .ok { st with implementation := some c }
  | .Sasl c =>
    match st.sasl with
    | some _ => .error (.DuplicateCapability ("SASL".data))
    | none => .ok { st with sasl := some c }
  | .Sieve c =>
    match st.sieve with
    | some _ => .error (.DuplicateCapability ("SIEVE".data))
    | none => .ok { st with sieve := some c }
  | .StartTls =>
    match st.start_tls with
    | some _ => .error (.DuplicateCapability ("STARTTLS".data))
    | none => .ok { st with start_tls := some () }
  | .MaxRedirects c =>
    match st.max_redirects with
    | some _ => .error (.DuplicateCapability ("MAX_REDIRECTS".data))
    | none => .ok { st with max_redirects := some c }
  | .Notify c =>
    match st.notify with
    | some _ => .error (.DuplicateCapability ("NOTIFY".data))
    | none => .ok { st with notify := some c }
  | .Language c =>
    match st.language with
    | some _ => .error (.DuplicateCapability ("LANGUAGE".data))
    | none => .ok { st with language := some c }
  | .Owner c =>
    match st.owner with
    | some _ => .error (.DuplicateCapability ("OWNER".data))
    | none => .ok { st with owner := some c }
  | .Version c =>
    match st.version with
    | some _ => .error (.DuplicateCapability ("VERSION".data))
    | none => .ok { st with version := some c }
  | .Unknown name value =>
    match lookupOthers st.others name with
    | some _ => .error (.DuplicateCapability name)
    | none => .ok { st with others := st.others ++ [(name, value)] }

/-- The fold over the capability list, short-circuiting (the source's `?`)
on the first duplicate. -/
def foldCaps : CapState → List Capability → Except CapabilitiesError CapState
  | st, [] => .ok st
  | st, cap :: rest =>
    match stepCap st cap with
    | .error e => .error e
    | .ok st' => foldCaps st' rest

/-- `verify_capabilities` from src/src/capabilities.rs: fold the list, then
check the three required fields in the source's match order —
`(Some, Some, Some)` success, then `(None, _, _)` missing IMPLEMENTATION,
then `(_, None, _)` missing SIEVE, then `(_, _, None)` missing VERSION. -/
def verify_capabilities (caps : List Capability) :
    Except CapabilitiesError Capabilities :=
  match foldCaps initState caps with
  | .error e => .error e
  | .ok st =>
    match st.implementation, st.sieve, st.version with
    | some i, some s, some v =>
      .ok { implementation := i, sasl := st.sasl.getD [], sieve := s
            start_tls := st.start_tls.isSome, max_redirects := st.max_redirects
            notify := st.notify, language := st.language, owner := st.owner
            version := v, others := st.others }
    | none, _, _ => .error .MissingImplementation
    | _, none, _ => .error .MissingSieve
    | _, _, none => .error .MissingVersion

/-- Discriminator for `Capability::Implementation` entries. -/
def isImplCap : Capability → Bool
  | .Implementation _ => true
  | _ => false

/-- Discriminator for `Capability::Sieve` entries. -/
def isSieveCap : Capability → Bool
  | .Sieve _ => true
  | _ => false

/-- Discriminator for `Capability::Version` entries. -/
def isVersionCap : Capability → Bool
  | .Version _ => true
  | _ => false

/-! ## src/src/sieve_name.rs -/

/-- `SieveNameError` from src/src/sieve_name.rs. -/
inductive SieveNameError where
  | mk
deriving DecidableEq

/-- `is_bad_sieve_name_char` from src/src/sieve_name.rs (RFC 5804 §1.6):
control characters up to 0x1F, the 0x7F–0x9F range, and the Unicode
line/paragraph separators U+2028/U+2029. -/
def is_bad_sieve_name_char (c : Char) : Bool :=
  if c.toNat ≤ 0x1f then true
  else if 0x7f ≤ c.toNat && c.toNat ≤ 0x9f then true
  else if c.toNat = 0x2028 || c.toNat = 0x2029 then true
  else false

/-- `is_bad_sieve_name`: any character of the name is bad. -/
def is_bad_sieve_name (name : List Char) : Bool :=
  name.any is_bad_sieve_name_char

/-- `SieveNameStr::new`: validate once at construction, returning the name
unchanged on success. The construction performs no I/O: it is a pure
function of the candidate name. -/
def SieveNameStr.new (name : List Char) : Except SieveNameError (List Char) :=
  if is_bad_sieve_name name then .error SieveNameError.mk
  else .ok name

/-- `SieveNameString::new`: delegates to `SieveNameStr::new` and keeps the
owned string. -/
def SieveNameString.new (name : List Char) : Except SieveNameError (List Char) :=
  match SieveNameStr.new name with
  | .error e => .error e
  | .ok n => .ok n

/-! ## Outgoing serialization -/

/-- UTF-8 encoded size in bytes of one character (what Rust `str::len`
counts per `char`). -/
def charBytes (c : Char) : Nat :=
  if c.toNat ≤ 0x7f then 1
  else if c.toNat ≤ 0x7ff then 2
  else if c.toNat ≤ 0xffff then 3
  else 4

/-- Rust `str::len`: the UTF-8 byte length of a string. -/
def utf8Len : List Char → Nat
  | [] => 0
  | c :: l => charBytes c + utf8Len l

/-- Decimal digits of a number, as produced by `itoa` / `Display for u64`. -/
def natToDigits (n : Nat) : List Char := (Nat.repr n).data

/-- `SieveWriter::string` from src/src/commands/definitions.rs, the string
serializer used by every live async command builder (AUTHENTICATE
mechanism names and base64 payloads, HAVESPACE/PUTSCRIPT/... script names,
script bodies): writes `"\x7b"`, the byte length (`string.len()`, converted
to `u32`, assumed in range here since the source `unwrap`s), `"\x7d"`, CRLF,
then the string bytes — with no `+` before the closing brace. -/
def SieveWriter.string (s : List Char) : List Char :=
  '{' :: (natToDigits (utf8Len s) ++ '}' :: '\r' :: '\n' :: s)

/-- `Display for SieveStr` from src/src/internal/command.rs: writes
`"\x7b"`, the byte length, `"+\x7d"`, CRLF, then the string bytes — the
RFC 5804 client-to-server literal form. -/
def SieveStr.display (s : List Char) : List Char :=
  '{' :: (natToDigits (utf8Len s) ++ '+' :: '}' :: '\r' :: '\n' :: s)

/-! ## src/src/client.rs: transport, connection, errors, handle_bye

The transport is embedded as a record carrying its closed/open state; I/O
itself (the async read/write plumbing) is abstracted away, with `close`
modelled as the state change it performs. A `Connection` exclusively owns
its transport, so "the connection is returned to the caller" is visible as
a `Connection` value in the outcome and "the transport is closed and no
connection is returned" as an outcome constructor carrying only the final
`Transport` state. -/

/-- State of the bidirectional byte stream owned by a connection. -/
structure Transport where
  closed : Bool
deriving DecidableEq

/-- A connection handle, owning its transport (the capabilities snapshot
and the phase type parameters play no role in the embedded claims). -/
structure Connection where
  stream : Transport
deriving DecidableEq

/-- `SieveError` from src/src/lib.rs (the umbrella error type of the live
command set). `Io` is spelled `IoError` here. -/
inductive SieveError where
  | IoError
  | Syntax
  | CapErr (e : CapabilitiesError)
  | Bye (info : ResponseInfo)
  | UnexpectedNo (info : ResponseInfo)

/-- `handle_bye` from src/src/client.rs: on a `Bye` tag, close the stream
and fail with `SieveError::Bye` carrying the response's code and human
text; `Ok` and `No` responses pass through with the stream untouched.
(The source's `stream.close()` is itself fallible; the embedding models
the close as the state change it performs.) -/
def handle_bye (t : Transport) (r : Response) : Transport × Except SieveError Response :=
  match r.tag with
  | .Bye => ({ t with closed := true }, .error (.Bye r.info))
  | .Ok => (t, .ok r)
  | .No => (t, .ok r)

/-- Outcome of one operation call, after the response has been parsed:
either a fatal error (the `Err` path of the source — no `Connection` value
reaches the caller, only the final transport state is recorded), a
recoverable error carrying the still-open connection (the source's
`RecoverableError { source, connection }`), or success carrying the
connection and the operation's result. -/
inductive OpOutcome (R : Type) (ERR : Type) where
  | fatal (t : Transport) (e : SieveError)
  | recoverable (c : Connection) (e : ERR)
  | ok (c : Connection) (res : R)

/-! ## src/src/commands/have_space.rs -/

/-- `HaveSpace` from src/src/commands/have_space.rs: `Yes`, or `No` with
the quota variant and optional human text (the spec's
`InsufficientQuota { quota, message }`). -/
inductive HaveSpace where
  | Yes
  | No (quota : QuotaVariant) (message : Option (List Char))

/-- `HaveSpaceError` from src/src/commands/have_space.rs. -/
inductive HaveSpaceError where
  | IllegalScriptName
  | UnexpectedNoResponseCode (info : ResponseInfo)

/-- The receive step of `Connection::have_space` (src/src/commands/
have_space.rs lines 48–64): run the parsed response through `handle_bye`,
then interpret — `Ok` is `HaveSpace::Yes`; `No` with a `Quota` code is the
successful `HaveSpace::No(quota, human)` result together with the
connection; any other `No` is the recoverable `UnexpectedNoResponseCode`
error, also with the connection. -/
def have_space (c : Connection) (r : Response) : OpOutcome HaveSpace HaveSpaceError :=
  match handle_bye c.stream r with
  | (t, .error e) => .fatal t e
  | (t, .ok r') =>
    match r'.tag with
    | .Ok => .ok { c with stream := t } HaveSpace.Yes
    | .No =>
      match r'.info.code with
      | some (.Quota q) => .ok { c with stream := t } (HaveSpace.No q r'.info.human)
      | _ => .recoverable { c with stream := t } (.UnexpectedNoResponseCode r'.info)
    | .Bye => .fatal t (.Bye r'.info)

/-! ## src/src/commands/put_script.rs -/

/-- `PutScript` from src/src/commands/put_script.rs. -/
inductive PutScript where
  | Ok (warnings : Option (List Char))
  | InvalidScript (error : Option (List Char))
  | InsufficientQuota (quota : QuotaVariant) (message : Option (List Char))

/-- The receive step of `Connection::put_scripts` (src/src/commands/
put_script.rs lines 34–63): after `handle_bye`, an `Ok` yields
`PutScript::Ok` (with the human text as warnings exactly when the code is
`WARNINGS`); a `No` with a `Quota` code yields `InsufficientQuota` and any
other `No` yields `InvalidScript` — both inside the success value, with
the connection returned. There is no recoverable-error path. -/
def put_scripts (c : Connection) (r : Response) : OpOutcome PutScript Empty :=
  match handle_bye c.stream r with
  | (t, .error e) => .fatal t e
  | (t, .ok r') =>
    match r'.tag with
    | .Ok =>
      .ok { c with stream := t }
        (PutScript.Ok
          (match r'.info.code with
           | some .Warnings => r'.info.human
           | _ => none))
    | .No =>
      match r'.info.code with
      | some (.Quota v) => .ok { c with stream := t } (PutScript.InsufficientQuota v r'.info.human)
      | _ => .ok { c with stream := t } (PutScript.InvalidScript r'.info.human)
    | .Bye => .fatal t (.Bye r'.info)

/-! ## src/src/sasl.rs and src/src/commands/authenticate.rs -/

/-- `SaslState` from src/src/sasl.rs: the outcome of one `resume` call. -/
inductive SaslState where
  | Yielded (data : List Nat)
  | Complete
  | CompleteWithFinalResponse (data : List Nat)

/-- `SaslState::has_response`. -/
def SaslState.has_response : SaslState → Bool
  | .CompleteWithFinalResponse _ => true
  | .Yielded _ => true
  | .Complete => false

/-- `SaslState::is_finished`. -/
def SaslState.is_finished : SaslState → Bool
  | .CompleteWithFinalResponse _ => true
  | .Complete => true
  | .Yielded _ => false

/-- `SaslState::response`. -/
def SaslState.response : SaslState → Option (List Nat)
  | .Yielded r => some r
  | .Complete => none
  | .CompleteWithFinalResponse r => some r

/-- `SaslError` from src/src/sasl.rs. -/
inductive SaslError (E : Type) where
  | UnexpectedOk
  | UnexpectedServerResponse
  | SaslError (e : E)
  | AuthTooWeak
  | EncryptNeeded
  | TransitionNeeded
  | Other (message : Option (List Char))

/-- Standard base64 alphabet (the `base64` crate's `STANDARD` engine). -/
def base64Char (n : Nat) : Char :=
  if n < 26 then Char.ofNat (65 + n)
  else if n < 52 then Char.ofNat (97 + (n - 26))
  else if n < 62 then Char.ofNat (48 + (n - 52))
  else if n = 62 then '+'
  else '/'

/-- `STANDARD.encode`: padded standard base64. -/
def base64Encode : List Nat → List Char
  | [] => []
  | [a] => [base64Char (a / 4), base64Char (a % 4 * 16), '=', '=']
  | [a, b] => [base64Char (a / 4), base64Char (a % 4 * 16 + b / 16), base64Char (b % 16 * 4), '=']
  | a :: b :: c :: rest =>
    base64Char (a / 4) :: base64Char (a % 4 * 16 + b / 16) ::
      base64Char (b % 16 * 4 + c / 64) :: base64Char (c % 64) :: base64Encode rest

/-- Value of one base64 alphabet character. -/
def base64DecodeChar (c : Char) : Option Nat :=
  if 'A' ≤ c && c ≤ 'Z' then some (c.toNat - 65)
  else if 'a' ≤ c && c ≤ 'z' then some (c.toNat - 97 + 26)
  else if '0' ≤ c && c ≤ '9' then some (c.toNat - 48 + 52)
  else if c = '+' then some 62
  else if c = '/' then some 63
  else none

/-- `STANDARD.decode`: strict padded standard base64 (canonical padding and
zero trailing bits required, as in the `base64` crate's default config). -/
def base64Decode : List Char → Option (List Nat)
  | [] => some []
  | a :: b :: c :: d :: rest =>
    match base64DecodeChar a, base64DecodeChar b with
    | some va, some vb =>
      if c = '=' then
        if d = '=' && rest.isEmpty && vb % 16 = 0 then some [va * 4 + vb / 16] else none
      else
        match base64DecodeChar c with
        | some vc =>
          if d = '=' then
            if rest.isEmpty && vc % 4 = 0 then some [va * 4 + vb / 16, vb % 16 * 16 + vc / 4]
            else none
          else
            match base64DecodeChar d with
            | some vd =>
              (base64Decode rest).map
                (fun tl => (va * 4 + vb / 16) :: (vb % 16 * 16 + vc / 4) :: (vc % 4 * 64 + vd) :: tl)
            | none => none
        | none => none
    | _, _ => none
  | _ => none

/-- A command written to the stream during one authenticate loop iteration:
`definitions::sasl_string(s)` (which itself frames `s` through
`SieveWriter::string` followed by CRLF). -/
inductive Sent where
  | saslString (s : List Char)

/-- Outcome of one iteration of the `Connection::authenticate` loop
(src/src/commands/authenticate.rs lines 49–155): the loop continues with an
updated `client_finished` flag, breaks to the capability-refresh phase,
returns `Ok(Authenticate::Error { connection, error })` (`failed` — note
the `Option Connection`), short-circuits with `Err` (`fatal` — no
connection value, only the final transport state), or panics on the
source's `STANDARD.decode(..).unwrap()` of a malformed base64 challenge. -/
inductive AuthStep (E : Type) where
  | panics
  | looped (c : Connection) (client_finished : Bool)
  | completed (c : Connection)
  | failed (connection : Option Connection) (error : SaslError E)
  | fatal (t : Transport) (e : SieveError)

/-- One iteration of the `Connection::authenticate` read loop, embedded as
a pure function. `received` is the already-parsed `response_authenticate`
result for this iteration (`Either` a bare sieve-string challenge or a
tagged response); `resume` is an oracle for what the mechanism's `resume()`
returns if the iteration calls it (the challenge bytes passed to it do not
influence this embedding); `followUp` is the parsed `response_nobye` result
consumed after a `"*"` abort, used only on that path. The returned list
records the commands sent during the iteration, in order. -/
def authenticate_step {E : Type} (c : Connection) (client_finished : Bool)
    (received : Sum (List Char) Response) (resume : Except E SaslState)
    (followUp : Response) : List Sent × AuthStep E :=
  match received with
  | .inl server_response =>
    if client_finished then
      ([], .failed (some c) .UnexpectedServerResponse)
    else
      match base64Decode server_response with
      | none => ([], .panics)
      | some _ =>
        match resume with
        | .error sasl_error =>
          match handle_bye c.stream followUp with
          | (t, .error e) => ([Sent.saslString ['*']], .fatal t e)
          | (t, .ok _) =>
            ([Sent.saslString ['*']],
              .failed (some { c with stream := t }) (.SaslError sasl_error))
        | .ok client_response =>
          ([Sent.saslString (base64Encode (client_response.response.getD []))],
            .looped c client_response.is_finished)
  | .inr response =>
    match handle_bye c.stream response with
    | (t, .error e) => ([], .fatal t e)
    | (t, .ok r') =>
      match r'.tag, r'.info.code with
      | .Ok, some (.Sasl server_challenge) =>
        if client_finished then
          ([], .failed (some { c with stream := t }) .UnexpectedServerResponse)
        else
          match base64Decode server_challenge with
          | none => ([], .panics)
          | some _ =>
            match resume with
            | .error sasl_error =>
              ([], .failed (some { c with stream := t }) (.SaslError sasl_error))
            | .ok client_response =>
              if !client_response.has_response then ([], .completed { c with stream := t })
              else ([], .failed (some { c with stream := t }) .UnexpectedOk)
      | .Ok, _ =>
        if client_finished then ([], .completed { c with stream := t })
        else ([], .failed none .UnexpectedOk)
      | .No, code =>
        match code with
        | some .AuthTooWeak => ([], .failed (some { c with stream := t }) .AuthTooWeak)
        | some .EncryptNeeded => ([], .failed (some { c with stream := t }) .EncryptNeeded)
        | some .TransitionNeeded => ([], .failed (some { c with stream := t }) .TransitionNeeded)
        | _ => ([], .fatal t (.UnexpectedNo r'.info))
      | .Bye, _ => ([], .fatal t (.Bye r'.info))

/-! ## src/src/client.rs: next_response_inner and UTF-8 chunk conversion -/

/-- Rust `str::from_utf8` validation and decoding, byte-exact: standard
UTF-8 with the usual continuation ranges, no overlong forms, no surrogate
code points, maximum U+10FFFF. Returns `none` exactly when `from_utf8`
returns `Err`. -/
def utf8DecodeRust : List Nat → Option (List Char)
  | [] => some []
  | b :: rest =>
    if b ≤ 0x7f then
      (utf8DecodeRust rest).map (fun tl => Char.ofNat b :: tl)
    else if b < 0xc2 then none
    else if b ≤ 0xdf then
      match rest with
      | b2 :: r =>
        if 0x80 ≤ b2 && b2 ≤ 0xbf then
          (utf8DecodeRust r).map (fun tl => Char.ofNat ((b - 0xc0) * 64 + (b2 - 0x80)) :: tl)
        else none
      | [] => none
    else if b ≤ 0xef then
      match rest with
      | b2 :: b3 :: r =>
        let lo2 : Nat := if b = 0xe0 then 0xa0 else 0x80
        let hi2 : Nat := if b = 0xed then 0x9f else 0xbf
        if lo2 ≤ b2 && b2 ≤ hi2 && 0x80 ≤ b3 && b3 ≤ 0xbf then
          (utf8DecodeRust r).map
            (fun tl => Char.ofNat ((b - 0xe0) * 4096 + (b2 - 0x80) * 64 + (b3 - 0x80)) :: tl)
        else none
      | _ => none
    else if b ≤ 0xf4 then
      match rest with
      | b2 :: b3 :: b4 :: r =>
        let lo2 : Nat := if b = 0xf0 then 0x90 else 0x80
        let hi2 : Nat := if b = 0xf4 then 0x8f else 0xbf
        if lo2 ≤ b2 && b2 ≤ hi2 && 0x80 ≤ b3 && b3 ≤ 0xbf && 0x80 ≤ b4 && b4 ≤ 0xbf then
          (utf8DecodeRust r).map
            (fun tl =>
              Char.ofNat
                ((b - 0xf0) * 262144 + (b2 - 0x80) * 4096 + (b3 - 0x80) * 64 + (b4 - 0x80)) :: tl)
        else none
      | _ => none
    else none

/-- What one iteration of `next_response_inner`'s poll loop does with a
freshly received chunk (src/src/client.rs line 292): convert it with
`str::from_utf8(..).unwrap()` — panicking if the chunk alone is not valid
UTF-8 — and otherwise append it to the accumulated parse buffer. -/
inductive ChunkStep where
  | panics
  | buffered (buf : List Char)

/-- The chunk-conversion step of `next_response_inner`. -/
def next_response_chunk_step (buf : List Char) (chunk : List Nat) : ChunkStep :=
  match utf8DecodeRust chunk with
  | none => .panics
  | some s => .buffered (buf ++ s)

/-! ## Helper lemmas -/

theorem takeWhile_append_all (p : Char → Bool) :
    ∀ (ds l : List Char), (∀ c ∈ ds, p c = true) →
      List.takeWhile p (ds ++ l) = ds ++ List.takeWhile p l := by
  intro ds
  induction ds with
  | nil => intro l _; simp
  | cons d ds ih =>
    intro l h
    simp [List.takeWhile_cons, h d (by simp)]
    exact ih l (fun c hc => h c (by simp [hc]))

theorem dropWhile_append_all (p : Char → Bool) :
    ∀ (ds l : List Char), (∀ c ∈ ds, p c = true) →
      List.dropWhile p (ds ++ l) = List.dropWhile p l := by
  intro ds
  induction ds with
  | nil => intro l _; simp
  | cons d ds ih =>
    intro l h
    simp only [List.cons_append, List.dropWhile_cons, h d (by simp)]
    exact ih l (fun c hc => h c (by simp [hc]))

theorem digit1_brace (ds r : List Char) (h1 : ds ≠ [])
    (h2 : ∀ c ∈ ds, c.isDigit = true) :
    digit1 (ds ++ '}' :: r) = .ok ds ('}' :: r) := by
  have htw : List.takeWhile (fun c => c.isDigit) (ds ++ '}' :: r) = ds := by
    rw [takeWhile_append_all _ _ _ h2]
    simp [List.takeWhile_cons]
  have hdw : List.dropWhile (fun c => c.isDigit) (ds ++ '}' :: r) = '}' :: r := by
    rw [dropWhile_append_all _ _ _ h2]
    simp [List.dropWhile_cons]
  simp [digit1, takeWhile1, htw, hdw, h1]

theorem literal_s2c_len_eval (ds s : List Char) (h1 : ds ≠ [])
    (h2 : ∀ c ∈ ds, c.isDigit = true) (h4 : digitsToNat ds < 2 ^ 64) :
    literal_s2c_len ('{' :: (ds ++ '}' :: '\r' :: '\n' :: s)) =
      .ok (digitsToNat ds) s := by
  have hd := digit1_brace ds ('\r' :: '\n' :: s) h1 h2
  have hne : ds.isEmpty = false := by
    cases ds with
    | nil => exact absurd rfl h1
    | cons a l => rfl
  have h4' : digitsToNat ds < 18446744073709551616 := h4
  simp [literal_s2c_len, pterminated, pdelimited, ppreceded, pmap, pthen, pLit,
    pLitAux, crlf, parse_to_u64, hd, hne, h4']

theorem charBytes_pos (c : Char) : 1 ≤ charBytes c := by
  unfold charBytes
  split_ifs <;> omega

theorem length_le_utf8Len : ∀ l : List Char, l.length ≤ utf8Len l := by
  intro l
  induction l with
  | nil => simp [utf8Len]
  | cons c l ih =>
    have := charBytes_pos c
    simp only [List.length_cons, utf8Len]
    omega

theorem literal_s2c_ok (ds s : List Char) (h1 : ds ≠ [])
    (h2 : ∀ c ∈ ds, c.isDigit = true) (h4 : digitsToNat ds < 2 ^ 64)
    (h5 : s.length = digitsToNat ds) :
    literal_s2c ('{' :: (ds ++ '}' :: '\r' :: '\n' :: s)) = .ok s [] := by
  rw [literal_s2c]
  unfold length_take
  rw [literal_s2c_len_eval ds s h1 h2 h4]
  simp [takeN, ← h5]

theorem literal_s2c_short (ds t : List Char) (h1 : ds ≠ [])
    (h2 : ∀ c ∈ ds, c.isDigit = true) (h4 : digitsToNat ds < 2 ^ 64)
    (h5 : t.length < digitsToNat ds) :
    literal_s2c ('{' :: (ds ++ '}' :: '\r' :: '\n' :: t)) = .err .Incomplete := by
  rw [literal_s2c]
  unfold length_take
  rw [literal_s2c_len_eval ds t h1 h2 h4]
  simp [takeN, h5]

theorem stepCap_impl_not (st : CapState) (cap : Capability) (st' : CapState)
    (h : stepCap st cap = .ok st') (hd : isImplCap cap = false) :
    st'.implementation = st.implementation := by
  cases cap <;> simp only [stepCap] at h <;> split at h <;>
    first
      | (injection h with h2; subst h2; simp_all [isImplCap])
      | simp_all [isImplCap]

theorem stepCap_impl_set (st : CapState) (cap : Capability) (st' : CapState)
    (h : stepCap st cap = .ok st') (hd : isImplCap cap = true) :
    st'.implementation.isSome = true := by
  cases cap <;> simp only [stepCap] at h <;> split at h <;>
    first
      | (injection h with h2; subst h2; simp_all [isImplCap])
      | simp_all [isImplCap]

theorem stepCap_sieve_not (st : CapState) (cap : Capability) (st' : CapState)
    (h : stepCap st cap = .ok st') (hd : isSieveCap cap = false) :
    st'.sieve = st.sieve := by
  cases cap <;> simp only [stepCap] at h <;> split at h <;>
    first
      | (injection h with h2; subst h2; simp_all [isSieveCap])
      | simp_all [isSieveCap]

theorem stepCap_sieve_set (st : CapState) (cap : Capability) (st' : CapState)
    (h : stepCap st cap = .ok st') (hd : isSieveCap cap = true) :
    st'.sieve.isSome = true := by
  cases cap <;> simp only [stepCap] at h <;> split at h <;>
    first
      | (injection h with h2; subst h2; simp_all [isSieveCap])
      | simp_all [isSieveCap]

theorem stepCap_version_not (st : CapState) (cap : Capability) (st' : CapState)
    (h : stepCap st cap = .ok st') (hd : isVersionCap cap = false) :
    st'.version = st.version := by
  cases cap <;> simp only [stepCap] at h <;> split at h <;>
    first
      | (injection h with h2; subst h2; simp_all [isVersionCap])
      | simp_all [isVersionCap]

theorem stepCap_version_set (st : CapState) (cap : Capability) (st' : CapState)
    (h : stepCap st cap = .ok st') (hd : isVersionCap cap = true) :
    st'.version.isSome = true := by
  cases cap <;> simp only [stepCap] at h <;> split at h <;>
    first
      | (injection h with h2; subst h2; simp_all [isVersionCap])
      | simp_all [isVersionCap]

theorem foldCaps_field_not {f : CapState → Option β} {d : Capability → Bool}
    (hstep : ∀ st cap st', stepCap st cap = .ok st' → d cap = false → f st' = f st) :
    ∀ (caps : List Capability) (st st' : CapState), foldCaps st caps = .ok st' →
      (∀ cap ∈ caps, d cap = false) → f st' = f st := by
  intro caps
  induction caps with
  | nil =>
    intro st st' h _
    simp only [foldCaps] at h
    injection h with h2
    rw [h2]
  | cons cap rest ih =>
    intro st st' h hall
    simp only [foldCaps] at h
    cases hs : stepCap st cap with
    | error e => rw [hs] at h; cases h
    | ok st1 =>
      rw [hs] at h
      rw [ih st1 st' h (fun c hc => hall c (List.mem_cons_of_mem _ hc))]
      exact hstep st cap st1 hs (hall cap (List.mem_cons_self _ _))

theorem foldCaps_field_set {f : CapState → Option β} {d : Capability → Bool}
    (hstep_not : ∀ st cap st', stepCap st cap = .ok st' → d cap = false → f st' = f st)
    (hstep_set : ∀ st cap st', stepCap st cap = .ok st' → d cap = true → (f st').isSome = true) :
    ∀ (caps : List Capability) (st st' : CapState), foldCaps st caps = .ok st' →
      ((∃ cap ∈ caps, d cap = true) ∨ (f st).isSome = true) → (f st').isSome = true := by
  intro caps
  induction caps with
  | nil =>
    intro st st' h hyp
    simp only [foldCaps] at h
    injection h with h2
    subst h2
    rcases hyp with ⟨cap, hc, _⟩ | hsome
    · cases hc
    · exact hsome
  | cons cap rest ih =>
    intro st st' h hyp
    simp only [foldCaps] at h
    cases hs : stepCap st cap with
    | error e => rw [hs] at h; cases h
    | ok st1 =>
      rw [hs] at h
      by_cases hd : d cap = true
      · exact ih st1 st' h (Or.inr (hstep_set st cap st1 hs hd))
      · have hd' : d cap = false := by
          cases hdc : d cap
          · rfl
          · exact absurd hdc hd
        rcases hyp with ⟨w, hw, hwt⟩ | hsome
        · rcases List.mem_cons.mp hw with hweq | hwrest
          · subst hweq; exact absurd hwt hd
          · exact ih st1 st' h (Or.inl ⟨w, hwrest, hwt⟩)
        · refine ih st1 st' h (Or.inr ?_)
          rw [hstep_not st cap st1 hs hd']
          exact hsome

theorem is_bad_char_iff (c : Char) : is_bad_sieve_name_char c = true ↔
    (c.toNat ≤ 0x1f ∨ (0x7f ≤ c.toNat ∧ c.toNat ≤ 0x9f) ∨
      c.toNat = 0x2028 ∨ c.toNat = 0x2029) := by
  unfold is_bad_sieve_name_char
  split_ifs with h1 h2 h3
  · simp only [true_iff]
    exact Or.inl h1
  · simp only [Bool.and_eq_true, decide_eq_true_eq] at h2
    simp only [true_iff]
    exact Or.inr (Or.inl h2)
  · simp only [Bool.or_eq_true, decide_eq_true_eq] at h3
    simp only [true_iff]
    exact Or.inr (Or.inr h3)
  · simp only [Bool.and_eq_true, Bool.or_eq_true, decide_eq_true_eq, not_and, not_or] at h2 h3
    simp only [false_iff, not_or]
    omega

/-! ## Claim theorems -/

/-- C1 (code evaluated at the failing input): the live writer
`SieveWriter::string` (src/src/commands/definitions.rs) frames the
mechanism name `PLAIN` (and every other outgoing string, e.g. the `*`
abort payload) as `LBRACE 5 RBRACE CRLF PLAIN` — the server-to-client
literal form without `+` — whereas the claim (and `Display for SieveStr`
in src/src/internal/command.rs, whose unit test demands `LBRACE 5 + RBRACE`)
requires the client-to-server form with `+`. -/
theorem c1_literal_form_divergence :
    SieveWriter.string ("PLAIN".data) = "{5}\r\nPLAIN".data ∧
    SieveWriter.string ['*'] = "{1}\r\n*".data ∧
    SieveStr.display ("PLAIN".data) = "{5+}\r\nPLAIN".data ∧
    SieveWriter.string ("PLAIN".data) ≠ "{5+}\r\nPLAIN".data := by
  refine ⟨rfl, rfl, rfl, ?_⟩
  decide

/-- C2 counterexample to the claim as stated: `é` is a string of byte
length 2, but parsing `LBRACE 2 RBRACE CRLF é` does not succeed with `é` —
the parser counts the literal length in characters (winnow `&str` tokens),
so it reports `Incomplete` while waiting for a second character. -/
theorem c2_counterexample :
    utf8Len ("é".data) = 2 ∧
    literal_s2c ("{2}\r\n".data ++ "é".data) = .err .Incomplete ∧
    literal_s2c ("{2}\r\n".data ++ "é".data) ≠ .ok ("é".data) [] := by
  refine ⟨rfl, rfl, fun h => nomatch h⟩

/-- C2 (amended): for every nonempty digit string evaluating to `n` (with
`n` within `u64` range) and every string `s` of `n` *characters*, parsing
`LBRACE digits RBRACE CRLF s` succeeds and yields exactly `s` (in
particular `LBRACE 0 RBRACE CRLF` yields the empty string); and whenever
fewer than `n` payload *bytes* are buffered after the CRLF the parser
reports `Incomplete`, never a success with a shorter string (characters
never outnumber their bytes). -/
theorem c2_literal_s2c_parses :
    ∀ ds : List Char, ds ≠ [] → (∀ c ∈ ds, c.isDigit = true) →
      digitsToNat ds < 2 ^ 64 →
      (∀ s : List Char, s.length = digitsToNat ds →
        literal_s2c ('{' :: (ds ++ '}' :: '\r' :: '\n' :: s)) = .ok s []) ∧
      (∀ t : List Char, utf8Len t < digitsToNat ds →
        literal_s2c ('{' :: (ds ++ '}' :: '\r' :: '\n' :: t)) = .err .Incomplete) := by
  intro ds h1 h2 h4
  refine ⟨fun s h5 => literal_s2c_ok ds s h1 h2 h4 h5, fun t h5 => ?_⟩
  exact literal_s2c_short ds t h1 h2 h4 (lt_of_le_of_lt (length_le_utf8Len t) h5)

/-- C2 witness: the amended theorem applied at concrete inputs, including
the zero-length literal. -/
theorem c2_witness :
    literal_s2c ("{0}\r\n".data) = .ok [] [] ∧
    literal_s2c ("{3}\r\nabc".data) = .ok ("abc".data) [] ∧
    literal_s2c ("{3}\r\nab".data) = .err .Incomplete := by
  refine ⟨?_, ?_, ?_⟩
  · exact (c2_literal_s2c_parses ['0'] (by decide) (by decide) (by decide)).1 [] (by decide)
  · exact (c2_literal_s2c_parses ['3'] (by decide) (by decide) (by decide)).1 ("abc".data) (by decide)
  · exact (c2_literal_s2c_parses ['3'] (by decide) (by decide) (by decide)).2 ("ab".data) (by decide)

/-- C3: on a parsed `Bye` response, `handle_bye` closes the transport and
fails with the unexpected-BYE error carrying the response's code and human
text, and every embedded operation receive step (`have_space`,
`put_scripts`, the `authenticate` loop) therefore ends in the `fatal`
outcome, whose constructor carries no `Connection` value — only the final
(closed) transport state. -/
theorem c3_bye_is_fatal :
    ∀ (t : Transport) (info : ResponseInfo),
      handle_bye t { tag := Tag.Bye, info := info } =
        ({ closed := true }, .error (SieveError.Bye info)) ∧
      (∀ c : Connection,
        have_space c { tag := Tag.Bye, info := info } =
          .fatal { closed := true } (SieveError.Bye info) ∧
        put_scripts c { tag := Tag.Bye, info := info } =
          .fatal { closed := true } (SieveError.Bye info) ∧
        (∀ (E : Type) (fin : Bool) (res : Except E SaslState) (fu : Response),
          authenticate_step c fin (.inr { tag := Tag.Bye, info := info }) res fu =
            ([], .fatal { closed := true } (SieveError.Bye info)))) := by
  intro t info
  exact ⟨rfl, fun c => ⟨rfl, rfl, fun E fin res fu => rfl⟩⟩

/-- C4: when the mechanism's `resume()` fails on a mid-exchange challenge
(client not yet finished), exactly one `sasl_string("*")` abort command is
sent, the follow-up NO/BYE response is consumed through `handle_bye`, and
only then is the mechanism error surfaced with the untouched connection
handed back (`failed (some c)`) — unless the follow-up was BYE, which
closes the transport and is fatal with no connection returned. -/
theorem c4_resume_error_abort :
    ∀ (E : Type) (c : Connection) (e : E) (ch : List Char) (info : ResponseInfo),
      (∃ d, base64Decode ch = some d) →
      authenticate_step c false (.inl ch) (.error e) { tag := Tag.No, info := info } =
        ([Sent.saslString ['*']], .failed (some c) (SaslError.SaslError e)) ∧
      authenticate_step c false (.inl ch) (.error e) { tag := Tag.Bye, info := info } =
        ([Sent.saslString ['*']], .fatal { closed := true } (SieveError.Bye info)) := by
  intro E c e ch info hd
  obtain ⟨d, hd⟩ := hd
  constructor
  · simp [authenticate_step, hd, handle_bye]
  · simp [authenticate_step, hd, handle_bye]

/-- C4 witness: the theorem applied at a concrete connection, mechanism
error and follow-up responses. -/
theorem c4_witness :
    authenticate_step (E := Unit) { stream := { closed := false } } false (.inl []) (.error ())
      { tag := Tag.No, info := { code := none, human := none } } =
      ([Sent.saslString ['*']],
        .failed (some { stream := { closed := false } }) (SaslError.SaslError ())) ∧
    authenticate_step (E := Unit) { stream := { closed := false } } false (.inl []) (.error ())
      { tag := Tag.Bye, info := { code := none, human := none } } =
      ([Sent.saslString ['*']],
        .fatal { closed := true } (SieveError.Bye { code := none, human := none })) := by
  exact ⟨(c4_resume_error_abort Unit _ () [] _ ⟨[], rfl⟩).1,
    (c4_resume_error_abort Unit _ () [] _ ⟨[], rfl⟩).2⟩

/-- C5: an `OK` response with no embedded SASL data completes
authentication exactly when the client already considers itself finished;
otherwise it fails with `UnexpectedOk` carrying *no* connection — and this
is the only path of the loop iteration that produces an error without a
connection (every other recoverable SASL failure is `failed (some _)`). -/
theorem c5_ok_without_sasl_data :
    (∀ (E : Type) (c : Connection) (info : ResponseInfo) (res : Except E SaslState)
        (fu : Response),
      (∀ s, info.code ≠ some (ResponseCode.Sasl s)) →
      authenticate_step c true (.inr { tag := Tag.Ok, info := info }) res fu =
        ([], .completed c) ∧
      authenticate_step c false (.inr { tag := Tag.Ok, info := info }) res fu =
        ([], .failed none .UnexpectedOk)) ∧
    (∀ (E : Type) (c : Connection) (fin : Bool) (recv : Sum (List Char) Response)
        (res : Except E SaslState) (fu : Response) (tr : List Sent) (e : SaslError E),
      authenticate_step c fin recv res fu = (tr, .failed none e) →
      e = .UnexpectedOk ∧ fin = false ∧
      ∃ info, recv = Sum.inr { tag := Tag.Ok, info := info } ∧
        ∀ s, info.code ≠ some (ResponseCode.Sasl s)) := by
  constructor
  · intro E c info res fu h
    obtain ⟨code, human⟩ := info
    cases code with
    | none => exact ⟨rfl, rfl⟩
    | some rc =>
      cases rc <;> first
        | exact absurd rfl (h _)
        | exact ⟨rfl, rfl⟩
  · intro E c fin recv res fu tr e h
    cases recv with
    | inl ch =>
      exfalso
      cases fin
      · cases hd : base64Decode ch with
        | none => simp [authenticate_step, hd] at h
        | some d =>
          cases res with
          | error e' =>
            obtain ⟨ft, fi⟩ := fu
            cases ft <;> simp [authenticate_step, hd, handle_bye] at h
          | ok st => simp [authenticate_step, hd] at h
      · simp [authenticate_step] at h
    | inr r =>
      obtain ⟨rt, rcode, rhuman⟩ := r
      cases rt with
      | Bye => exfalso; simp [authenticate_step, handle_bye] at h
      | No =>
        exfalso
        cases rcode with
        | none => simp [authenticate_step, handle_bye] at h
        | some rc => cases rc <;> simp [authenticate_step, handle_bye] at h
      | Ok =>
        cases rcode with
        | none =>
          cases fin
          · simp only [authenticate_step, handle_bye] at h
            injection h with h1 h2
            injection h2 with h3 h4
            exact ⟨h4.symm, rfl, ⟨{ code := none, human := rhuman }, rfl, fun s hs => nomatch hs⟩⟩
          · exfalso; simp [authenticate_step, handle_bye] at h
        | some rc =>
          cases rc with
          | Sasl s =>
            exfalso
            cases fin
            · cases hd : base64Decode s with
              | none => simp [authenticate_step, handle_bye, hd] at h
              | some d =>
                cases res with
                | error e' => simp [authenticate_step, handle_bye, hd] at h
                | ok st =>
                  cases hr : st.has_response <;>
                    simp [authenticate_step, handle_bye, hd, hr] at h
            · simp [authenticate_step, handle_bye] at h
          | AuthTooWeak =>
            cases fin
            · simp only [authenticate_step, handle_bye] at h
              injection h with h1 h2
              injection h2 with h3 h4
              exact ⟨h4.symm, rfl, ⟨{ code := some .AuthTooWeak, human := rhuman }, rfl, fun s hs => by simp at hs⟩⟩
            · exfalso
              simp only [authenticate_step, handle_bye] at h
              injection h with h1 h2
              injection h2
          | EncryptNeeded =>
            cases fin
            · simp only [authenticate_step, handle_bye] at h
              injection h with h1 h2
              injection h2 with h3 h4
              exact ⟨h4.symm, rfl, ⟨{ code := some .EncryptNeeded, human := rhuman }, rfl, fun s hs => by simp at hs⟩⟩
            · exfalso
              simp only [authenticate_step, handle_bye] at h
              injection h with h1 h2
              injection h2
          | Quota q =>
            cases fin
            · simp only [authenticate_step, handle_bye] at h
              injection h with h1 h2
              injection h2 with h3 h4
              exact ⟨h4.symm, rfl, ⟨{ code := some (.Quota q), human := rhuman }, rfl, fun s hs => by simp at hs⟩⟩
            · exfalso
              simp only [authenticate_step, handle_bye] at h
              injection h with h1 h2
              injection h2
          | Referral u =>
            cases fin
            · simp only [authenticate_step, handle_bye] at h
              injection h with h1 h2
              injection h2 with h3 h4
              exact ⟨h4.symm, rfl, ⟨{ code := some (.Referral u), human := rhuman }, rfl, fun s hs => by simp at hs⟩⟩
            · exfalso
              simp only [authenticate_step, handle_bye] at h
              injection h with h1 h2
              injection h2
          | TransitionNeeded =>
            cases fin
            · simp only [authenticate_step, handle_bye] at h
              injection h with h1 h2
              injection h2 with h3 h4
              exact ⟨h4.symm, rfl, ⟨{ code := some .TransitionNeeded, human := rhuman }, rfl, fun s hs => by simp at hs⟩⟩
            · exfalso
              simp only [authenticate_step, handle_bye] at h
              injection h with h1 h2
              injection h2
          | TryLater =>
            cases fin
            · simp only [authenticate_step, handle_bye] at h
              injection h with h1 h2
              injection h2 with h3 h4
              exact ⟨h4.symm, rfl, ⟨{ code := some .TryLater, human := rhuman }, rfl, fun s hs => by simp at hs⟩⟩
            · exfalso
              simp only [authenticate_step, handle_bye] at h
              injection h with h1 h2
              injection h2
          | Active =>
            cases fin
            · simp only [authenticate_step, handle_bye] at h
              injection h with h1 h2
              injection h2 with h3 h4
              exact ⟨h4.symm, rfl, ⟨{ code := some .Active, human := rhuman }, rfl, fun s hs => by simp at hs⟩⟩
            · exfalso
              simp only [authenticate_step, handle_bye] at h
              injection h with h1 h2
              injection h2
          | Nonexistent =>
            cases fin
            · simp only [authenticate_step, handle_bye] at h
              injection h with h1 h2
              injection h2 with h3 h4
              exact ⟨h4.symm, rfl, ⟨{ code := some .Nonexistent, human := rhuman }, rfl, fun s hs => by simp at hs⟩⟩
            · exfalso
              simp only [authenticate_step, handle_bye] at h
              injection h with h1 h2
              injection h2
          | AlreadyExists =>
            cases fin
            · simp only [authenticate_step, handle_bye] at h
              injection h with h1 h2
              injection h2 with h3 h4
              exact ⟨h4.symm, rfl, ⟨{ code := some .AlreadyExists, human := rhuman }, rfl, fun s hs => by simp at hs⟩⟩
            · exfalso
              simp only [authenticate_step, handle_bye] at h
              injection h with h1 h2
              injection h2
          | Warnings =>
            cases fin
            · simp only [authenticate_step, handle_bye] at h
              injection h with h1 h2
              injection h2 with h3 h4
              exact ⟨h4.symm, rfl, ⟨{ code := some .Warnings, human := rhuman }, rfl, fun s hs => by simp at hs⟩⟩
            · exfalso
              simp only [authenticate_step, handle_bye] at h
              injection h with h1 h2
              injection h2
          | Tag t =>
            cases fin
            · simp only [authenticate_step, handle_bye] at h
              injection h with h1 h2
              injection h2 with h3 h4
              exact ⟨h4.symm, rfl, ⟨{ code := some (.Tag t), human := rhuman }, rfl, fun s hs => by simp at hs⟩⟩
            · exfalso
              simp only [authenticate_step, handle_bye] at h
              injection h with h1 h2
              injection h2
          | Extension n d =>
            cases fin
            · simp only [authenticate_step, handle_bye] at h
              injection h with h1 h2
              injection h2 with h3 h4
              exact ⟨h4.symm, rfl, ⟨{ code := some (.Extension n d), human := rhuman }, rfl, fun s hs => by simp at hs⟩⟩
            · exfalso
              simp only [authenticate_step, handle_bye] at h
              injection h with h1 h2
              injection h2

/-- C5 witness: both halves of the theorem applied at concrete inputs. -/
theorem c5_witness :
    authenticate_step (E := Unit) { stream := { closed := false } } true
      (.inr { tag := Tag.Ok, info := { code := none, human := none } }) (.ok .Complete)
      { tag := Tag.Ok, info := { code := none, human := none } } =
      ([], .completed { stream := { closed := false } }) ∧
    authenticate_step (E := Unit) { stream := { closed := false } } false
      (.inr { tag := Tag.Ok, info := { code := none, human := none } }) (.ok .Complete)
      { tag := Tag.Ok, info := { code := none, human := none } } =
      ([], .failed none .UnexpectedOk) ∧
    (SaslError.UnexpectedOk : SaslError Unit) = .UnexpectedOk := by
  have h1 := c5_ok_without_sasl_data.1 Unit { stream := { closed := false } }
    { code := none, human := none } (.ok .Complete)
    { tag := Tag.Ok, info := { code := none, human := none } } (fun s hs => nomatch hs)
  have h2 := c5_ok_without_sasl_data.2 Unit { stream := { closed := false } } false
    (.inr { tag := Tag.Ok, info := { code := none, human := none } }) (.ok .Complete)
    { tag := Tag.Ok, info := { code := none, human := none } } [] .UnexpectedOk rfl
  exact ⟨h1.1, h1.2, h2.1⟩

/-- Reduction of `verify_capabilities` once the fold's result is known. -/
theorem verify_capabilities_eq (caps : List Capability) (st : CapState)
    (hst : foldCaps initState caps = .ok st) :
    verify_capabilities caps =
      match st.implementation, st.sieve, st.version with
      | some i, some s, some v =>
        .ok { implementation := i, sasl := st.sasl.getD [], sieve := s
              start_tls := st.start_tls.isSome, max_redirects := st.max_redirects
              notify := st.notify, language := st.language, owner := st.owner
              version := v, others := st.others }
      | none, _, _ => .error .MissingImplementation
      | _, none, _ => .error .MissingSieve
      | _, _, none => .error .MissingVersion := by
  unfold verify_capabilities
  rw [hst]

/-- C6: whenever the fold over a capability list completes (no duplicate
key aborted it), a list with no `IMPLEMENTATION` entry validates to
`MissingImplementation`; with `IMPLEMENTATION` present but no `SIEVE`, to
`MissingSieve`; and with both present but no `VERSION`, to
`MissingVersion` — the three checks applied in that priority order after
the whole list has been folded. -/
theorem c6_missing_required_caps :
    ∀ caps : List Capability, (∃ st, foldCaps initState caps = .ok st) →
      (caps.all (fun c => !isImplCap c) = true →
        verify_capabilities caps = .error .MissingImplementation) ∧
      (caps.any isImplCap = true → caps.all (fun c => !isSieveCap c) = true →
        verify_capabilities caps = .error .MissingSieve) ∧
      (caps.any isImplCap = true → caps.any isSieveCap = true →
        caps.all (fun c => !isVersionCap c) = true →
        verify_capabilities caps = .error .MissingVersion) := by
  intro caps hfold
  obtain ⟨st, hst⟩ := hfold
  refine ⟨?_, ?_, ?_⟩
  · intro hall
    have hnone : st.implementation = none :=
      foldCaps_field_not stepCap_impl_not caps initState st hst
        (fun cap hc => by simpa using List.all_eq_true.mp hall cap hc)
    rw [verify_capabilities_eq caps st hst, hnone]
    cases st.sieve <;> cases st.version <;> rfl
  · intro hany hallS
    have himpl : st.implementation.isSome = true :=
      foldCaps_field_set stepCap_impl_not stepCap_impl_set caps initState st hst
        (Or.inl (by simpa using List.any_eq_true.mp hany))
    obtain ⟨i, hi⟩ := Option.isSome_iff_exists.mp himpl
    have hsieve : st.sieve = none :=
      foldCaps_field_not stepCap_sieve_not caps initState st hst
        (fun cap hc => by simpa using List.all_eq_true.mp hallS cap hc)
    rw [verify_capabilities_eq caps st hst, hi, hsieve]
    cases st.version <;> rfl
  · intro hanyI hanyS hallV
    have himpl : st.implementation.isSome = true :=
      foldCaps_field_set stepCap_impl_not stepCap_impl_set caps initState st hst
        (Or.inl (by simpa using List.any_eq_true.mp hanyI))
    obtain ⟨i, hi⟩ := Option.isSome_iff_exists.mp himpl
    have hsieve : st.sieve.isSome = true :=
      foldCaps_field_set stepCap_sieve_not stepCap_sieve_set caps initState st hst
        (Or.inl (by simpa using List.any_eq_true.mp hanyS))
    obtain ⟨s, hs⟩ := Option.isSome_iff_exists.mp hsieve
    have hver : st.version = none :=
      foldCaps_field_not stepCap_version_not caps initState st hst
        (fun cap hc => by simpa using List.all_eq_true.mp hallV cap hc)
    rw [verify_capabilities_eq caps st hst, hi, hs, hver]

/-- C6 witness: concrete capability lists exercising all three missing-key
errors through the theorem. -/
theorem c6_witness :
    verify_capabilities [] = .error .MissingImplementation ∧
    verify_capabilities [Capability.Implementation ('X' :: [])] = .error .MissingSieve ∧
    verify_capabilities [Capability.Implementation ('X' :: []), Capability.Sieve []] =
      .error .MissingVersion := by
  refine ⟨?_, ?_, ?_⟩
  · exact (c6_missing_required_caps [] ⟨initState, rfl⟩).1 rfl
  · exact (c6_missing_required_caps [Capability.Implementation ('X' :: [])] ⟨_, rfl⟩).2.1 rfl rfl
  · exact (c6_missing_required_caps [Capability.Implementation ('X' :: []), Capability.Sieve []]
      ⟨_, rfl⟩).2.2 rfl rfl rfl

/-- C7: a `NO` response whose code is any `Quota` variant makes
`have_space` return the structured insufficient-quota result
`HaveSpace.No quota human` (the spec's `InsufficientQuota`) in the success
value, together with the unchanged (still-open) connection — not an error;
and the concrete wire line `NO (QUOTA/MAXSIZE) "too big" CRLF` parses to
exactly that response and yields exactly that result. -/
theorem c7_have_space_quota_no :
    (∀ (c : Connection) (q : QuotaVariant) (human : Option (List Char)),
      have_space c { tag := Tag.No, info := { code := some (.Quota q), human := human } } =
        .ok c (HaveSpace.No q human)) ∧
    response_oknobye ("NO (QUOTA/MAXSIZE) \"too big\"\r\n".data) =
      .ok { tag := Tag.No,
            info := { code := some (.Quota .MaxSize), human := some ("too big".data) } } [] ∧
    (∀ c : Connection,
      have_space c
          { tag := Tag.No,
            info := { code := some (.Quota .MaxSize), human := some ("too big".data) } } =
        .ok c (HaveSpace.No .MaxSize (some ("too big".data)))) := by
  exact ⟨fun c q human => rfl, rfl, fun c => rfl⟩

/-- C8: sieve script name construction succeeds exactly when no character
is a C0 control (≤ 0x1F), in the 0x7F–0x9F range, or U+2028/U+2029;
`SieveNameString::new` delegates to `SieveNameStr::new`; and a name
containing byte 0x07 is rejected at construction — a pure function that
runs before any transport write. -/
theorem c8_sieve_name_validation :
    (∀ name : List Char, SieveNameStr.new name = .ok name ↔
      ∀ c ∈ name, ¬(c.toNat ≤ 0x1f ∨ (0x7f ≤ c.toNat ∧ c.toNat ≤ 0x9f) ∨
        c.toNat = 0x2028 ∨ c.toNat = 0x2029)) ∧
    (∀ name : List Char, SieveNameString.new name = SieveNameStr.new name) ∧
    SieveNameStr.new ['b', Char.ofNat 0x07] = .error SieveNameError.mk := by
  refine ⟨?_, ?_, rfl⟩
  · intro name
    unfold SieveNameStr.new
    split_ifs with hb
    · simp only [is_bad_sieve_name, List.any_eq_true] at hb
      obtain ⟨c, hc, hbad⟩ := hb
      constructor
      · intro h; cases h
      · intro hall
        exact absurd ((is_bad_char_iff c).mp hbad) (hall c hc)
    · simp only [is_bad_sieve_name, List.any_eq_true] at hb
      push_neg at hb
      constructor
      · intro _ c hc
        have hc2 := hb c hc
        exact fun hr => hc2 ((is_bad_char_iff c).mpr hr)
      · intro _; rfl
  · intro name
    unfold SieveNameString.new
    cases h : SieveNameStr.new name <;> rfl

/-- C8 witness: the characterization applied at concrete names. -/
theorem c8_witness :
    SieveNameStr.new ('b' :: []) = .ok ('b' :: []) ∧
    SieveNameStr.new ['b', Char.ofNat 0x07] = .error SieveNameError.mk := by
  refine ⟨?_, c8_sieve_name_validation.2.2⟩
  exact (c8_sieve_name_validation.1 ('b' :: [])).mpr (by decide)

/-- C9: `next_response_inner` converts each received chunk with
`str::from_utf8(..).unwrap()`, so a chunk that is not valid UTF-8 on its
own — such as `0xC3`, the first byte of the well-formed two-byte character
`é` split across two reads, or the never-valid byte `0xFF` — panics
instead of producing a `Syntax` or `Io` error, while the same bytes
arriving in one chunk are accepted. -/
theorem c9_next_response_utf8_panic :
    next_response_chunk_step [] [0xc3] = ChunkStep.panics ∧
    next_response_chunk_step [] [0xff] = ChunkStep.panics ∧
    utf8DecodeRust [0xc3] = none ∧
    utf8DecodeRust [0xc3, 0xa9] = some ['é'] ∧
    next_response_chunk_step [] [0xc3, 0xa9] = ChunkStep.buffered ['é'] := by
  exact ⟨rfl, rfl, rfl, rfl, rfl⟩

/-- C10: `put_scripts` treats every `NO` response as recoverable — a
`Quota` code yields `InsufficientQuota` with that variant and the human
text, any other code (or none) yields `InvalidScript` with the human
text, and in both cases the outcome is the success constructor carrying
the unchanged connection, so no `NO` response drops the connection. -/
theorem c10_put_scripts_no_is_recoverable :
    ∀ (c : Connection) (code : Option ResponseCode) (human : Option (List Char)),
      put_scripts c { tag := Tag.No, info := { code := code, human := human } } =
        .ok c
          (match code with
           | some (ResponseCode.Quota v) => PutScript.InsufficientQuota v human
           | _ => PutScript.InvalidScript human) := by
  intro c code human
  cases code with
  | none => rfl
  | some rc => cases rc <;> rfl
